import Mathlib

set_option maxHeartbeats 1000000

namespace Epsagon

/-- Shallow embedding of the Python values handled by the event core:
scalars, ordered sequences (`list`/`tuple`), and key-value mappings
(`dict`, modelled as an insertion-ordered association list, Python dict
iteration order being modelled as the list order). -/
inductive PyVal where
  | none
  | bool (b : Bool)
  | int (n : Int)
  | float (q : ℚ)
  | str (s : String)
  | list (xs : List PyVal)
  | tuple (xs : List PyVal)
  | dict (entries : List (PyVal × PyVal))

mutual

/-- Structural equality on embedded Python values; used to model the key
comparisons of dict operations (on the key types the source actually
stores — strings, numbers, tuples, None — it agrees with Python equality). -/
def pyEqb : PyVal → PyVal → Bool
  | .none, .none => true
  | .bool a, .bool b => a == b
  | .int a, .int b => a == b
  | .float a, .float b => a == b
  | .str a, .str b => a == b
  | .list a, .list b => pyEqbList a b
  | .tuple a, .tuple b => pyEqbList a b
  | .dict a, .dict b => pyEqbEntries a b
  | _, _ => false

/-- Elementwise equality of embedded sequences. -/
def pyEqbList : List PyVal → List PyVal → Bool
  | [], [] => true
  | x :: xs, y :: ys => pyEqb x y && pyEqbList xs ys
  | _, _ => false

/-- Entrywise equality of embedded dict association lists. -/
def pyEqbEntries : List (PyVal × PyVal) → List (PyVal × PyVal) → Bool
  | [], [] => true
  | (k₁, v₁) :: xs, (k₂, v₂) :: ys => pyEqb k₁ k₂ && pyEqb v₁ v₂ && pyEqbEntries xs ys
  | _, _ => false

end

mutual

theorem pyEqb_refl : (v : PyVal) → pyEqb v v = true
  | .none => rfl
  | .bool b => by simp [pyEqb]
  | .int n => by simp [pyEqb]
  | .float q => by simp [pyEqb]
  | .str s => by simp [pyEqb]
  | .list xs => by simpa [pyEqb] using pyEqbList_refl xs
  | .tuple xs => by simpa [pyEqb] using pyEqbList_refl xs
  | .dict es => by simpa [pyEqb] using pyEqbEntries_refl es

theorem pyEqbList_refl : (xs : List PyVal) → pyEqbList xs xs = true
  | [] => rfl
  | x :: xs => by simp [pyEqbList, pyEqb_refl x, pyEqbList_refl xs]

theorem pyEqbEntries_refl : (es : List (PyVal × PyVal)) → pyEqbEntries es es = true
  | [] => rfl
  | (k, v) :: es => by simp [pyEqbEntries, pyEqb_refl k, pyEqb_refl v, pyEqbEntries_refl es]

end

/-- Python dict item assignment `d[k] = v`: replaces the value in place at
the first entry whose key equals `k` (keeping the stored key object and its
position, as CPython does), otherwise appends a new entry at the end. -/
def dictSet (k v : PyVal) : List (PyVal × PyVal) → List (PyVal × PyVal)
  | [] => [(k, v)]
  | (k₀, v₀) :: rest =>
      if pyEqb k₀ k then (k₀, v) :: rest else (k₀, v₀) :: dictSet k v rest

/-- Python `d.pop(k)`'s effect on the entries: removes the entry whose key
equals `k` (all of them; a real dict holds at most one). -/
def eraseKey (k : PyVal) (es : List (PyVal × PyVal)) : List (PyVal × PyVal) :=
  es.filter fun p => !(pyEqb p.1 k)

/-- Python dict lookup `d[k]`/`d.get(k)`: the value at the first entry whose
key equals `k`. -/
def pyLookup (k : PyVal) : List (PyVal × PyVal) → Option PyVal
  | [] => Option.none
  | (k₀, v₀) :: rest => if pyEqb k₀ k then some v₀ else pyLookup k rest

/-- The key-type test of `_copy_user_data_safely`
(`isinstance(key, (str, int, float, bool))`; the explicit `key is None`
check of the source is subsumed, `None` being none of these types). -/
def keySupported : PyVal → Bool
  | .str _ => true
  | .int _ => true
  | .float _ => true
  | .bool _ => true
  | _ => false

mutual

/-- Python `repr` on the embedded values, as used inside container
displays. String quoting uses the plain single-quote character; `float`
display is an abstraction (no claim evaluates it: floats are supported
dict keys and are never coerced to strings by the source). -/
def pyRepr : PyVal → String
  | .none => "None"
  | .bool b => if b then "True" else "False"
  | .int n => toString n
  | .float q => toString q
  | .str s => String.singleton (Char.ofNat 39) ++ s ++ String.singleton (Char.ofNat 39)
  | .list xs => "[" ++ String.intercalate ", " (pyReprList xs) ++ "]"
  | .tuple xs =>
      "(" ++ String.intercalate ", " (pyReprList xs)
          ++ (if xs.length == 1 then ",)" else ")")
  | .dict es => "\x7b" ++ String.intercalate ", " (pyReprEntries es) ++ "\x7d"

/-- `repr` of each element of a sequence display. -/
def pyReprList : List PyVal → List String
  | [] => []
  | x :: xs => pyRepr x :: pyReprList xs

/-- `repr` of each `key: value` item of a dict display. -/
def pyReprEntries : List (PyVal × PyVal) → List String
  | [] => []
  | (k, v) :: es => (pyRepr k ++ ": " ++ pyRepr v) :: pyReprEntries es

end

/-- Python `str(v)`: the string itself for a string, `repr` otherwise
(`str` and `repr` agree on the non-string values the source coerces). -/
def pyStr : PyVal → String
  | .str s => s
  | v => pyRepr v

mutual

/-- Embedding of `BaseEvent._copy_user_data_safely` (`self` is unused by
the source): non-containers and empty containers (falsy `data`) are
returned unchanged; lists and tuples become lists of recursive copies;
for a dict, a shallow copy is taken and then, for each key of the
original, the recursive copy of its value is computed, and only entries
with an unsupported key are popped and re-inserted under `str(key)` with
that copied value. -/
def safeCopy : PyVal → PyVal
  | .list xs => if xs.isEmpty then .list xs else .list (safeCopyList xs)
  | .tuple xs => if xs.isEmpty then .tuple xs else .list (safeCopyList xs)
  | .dict es => if es.isEmpty then .dict es else .dict (safeCopyLoop es es)
  | v => v

/-- The list comprehension of `_copy_user_data_safely` over a sequence. -/
def safeCopyList : List PyVal → List PyVal
  | [] => []
  | x :: xs => safeCopy x :: safeCopyList xs

/-- The `for key in data` loop of `_copy_user_data_safely`: iterates the
original entries, threading the copied dict; the recursive copy of the
value is computed for every entry but used only in the unsupported-key
branch, exactly as in the source. -/
def safeCopyLoop : List (PyVal × PyVal) → List (PyVal × PyVal) → List (PyVal × PyVal)
  | [], acc => acc
  | (k, v) :: rest, acc =>
      let value := safeCopy v
      safeCopyLoop rest
        (if keySupported k then acc
         else dictSet (PyVal.str (pyStr k)) value (eraseKey k acc))

end

/-- Modelled from the spec: the `ErrorCode` enum imported by
`src/epsagon/event.py` from `epsagon/common.py` (a file not under `src/`);
the spec fixes the external contract 0 = OK, 1 = ERROR, 2 = EXCEPTION. -/
inductive ErrorCode where
  | OK
  | ERROR
  | EXCEPTION
deriving DecidableEq, Repr

/-- Modelled from the spec: the integer each `ErrorCode` member serializes
to (0 = OK, 1 = ERROR, 2 = EXCEPTION). -/
def ErrorCode.toCode : ErrorCode → Nat
  | .OK => 0
  | .ERROR => 1
  | .EXCEPTION => 2

/-- The attributes `BaseEvent.__init__` assigns on `self`. `start_time`
and `duration` are epoch-second floats, embedded as rationals. -/
structure BaseEvent where
  start_time : ℚ
  event_id : String
  origin : String
  duration : ℚ
  error_code : ErrorCode
  exception : PyVal
  terminated : Bool
  resource : PyVal

/-- Embedding of `BaseEvent.__init__(start_time)` for `ORIGIN = 'base'`,
`RESOURCE_TYPE = 'base'`; the `origin == 'runner'` trace-id branch is dead
for this class and is omitted. -/
def baseEventInit (start_time : ℚ) : BaseEvent :=
  { start_time := start_time
    event_id := ""
    origin := "base"
    duration := 0
    error_code := ErrorCode.OK
    exception := .dict []
    terminated := false
    resource := .dict
      [ (.str "type", .str "base")
      , (.str "name", .str "")
      , (.str "operation", .str "")
      , (.str "metadata", .dict []) ] }

/-- Embedding of `BaseEvent.set_error`: sets the code to ERROR unless it
is already EXCEPTION. -/
def set_error (ev : BaseEvent) : BaseEvent :=
  if ev.error_code ≠ ErrorCode.EXCEPTION then
    { ev with error_code := ErrorCode.ERROR }
  else ev

/-- The external representation produced by `BaseEvent.to_dict` and
consumed by `BaseEvent.load_from_dict`: the required keys as typed fields,
with the optional `exception` key as an `Option`. -/
structure EventDict where
  id : String
  start_time : ℚ
  duration : ℚ
  origin : String
  error_code : ErrorCode
  resource : PyVal
  exception : Option PyVal

/-- Embedding of `BaseEvent.load_from_dict`: builds a `BaseEvent` from the
representation, reading the `exception` key exactly when the error code is
EXCEPTION; a missing `exception` key there is Python's `KeyError`,
modelled as `Option.none`. -/
def load_from_dict (event_data : EventDict) : Option BaseEvent :=
  let event := baseEventInit event_data.start_time
  let event :=
    { event with
        event_id := event_data.id
        origin := event_data.origin
        duration := event_data.duration
        error_code := event_data.error_code
        resource := event_data.resource }
  if event.error_code = ErrorCode.EXCEPTION then
    match event_data.exception with
    | some exc => some { event with exception := exc }
    | _ => Option.none
  else
    some event

/-- Embedding of `BaseEvent.to_dict`: the representation carries the
`exception` key exactly when the error code is EXCEPTION. -/
def to_dict (ev : BaseEvent) : EventDict :=
  { id := ev.event_id
    start_time := ev.start_time
    duration := ev.duration
    origin := ev.origin
    error_code := ev.error_code
    resource := ev.resource
    exception :=
      if ev.error_code = ErrorCode.EXCEPTION then some ev.exception
      else Option.none }

/-- Well-formedness of a representation, per the spec: the `exception` key
is present exactly when `error_code` is EXCEPTION. -/
def wellFormedEventDict (x : EventDict) : Bool :=
  (x.error_code == ErrorCode.EXCEPTION) == x.exception.isSome

/-- The Python exceptions this embedding distinguishes. -/
inductive PyErr where
  | typeError
  | indexError
  | attributeError
  | valueError
deriving DecidableEq, Repr

/-- An exception object as `set_exception` reads it: `typeName` is
`type(exception).__name__` when the type has that attribute (`Option.none`
models a type lacking it), `strForm` is `str(exception)`. -/
structure PyExcVal where
  typeName : Option String
  strForm : String

/-- One entry of `inspect.trace()` as `set_exception` reads it: filename,
function name, line number and the frame's local-variable dict. -/
structure FrameInfo where
  filename : String
  function : String
  lineno : Nat
  f_locals : List (PyVal × PyVal)

/-- Containment of `needle` as a contiguous run of `hay`. -/
def listContainsRun (hay needle : List Char) : Bool :=
  if needle.isPrefixOf hay then true
  else
    match hay with
    | [] => false
    | _ :: t => listContainsRun t needle

/-- Substring containment, modelling Python's `in` on strings. -/
def strContains (hay needle : String) : Bool :=
  listContainsRun hay.data needle.data

/-- The frame filter of `set_exception`: keep frames whose filename does
not contain the instrumentation marker `/epsagon` and whose locals are
non-empty (truthy). -/
def frameKept (fr : FrameInfo) : Bool :=
  !(strContains fr.filename "/epsagon") && !fr.f_locals.isEmpty

/-- The frame key `'/'.join([frame.filename, frame.function, str(frame.lineno)])`. -/
def frameKey (fr : FrameInfo) : String :=
  fr.filename ++ "/" ++ fr.function ++ "/" ++ toString fr.lineno

/-- One step of the frames dict comprehension: insert the kept frame
under its key with its raw locals dict as value. -/
def framesStep (acc : List (PyVal × PyVal)) (fr : FrameInfo) : List (PyVal × PyVal) :=
  if frameKept fr then dictSet (.str (frameKey fr)) (.dict fr.f_locals) acc
  else acc

/-- The dict comprehension of `set_exception` over `inspect.trace()`:
each kept frame keyed by `frameKey` with its raw locals dict as value. -/
def buildFrames (stack : List FrameInfo) : List (PyVal × PyVal) :=
  stack.foldl framesStep []

/-- Membership of a string in a list of strings, by `==`. -/
def strIn (s : String) : List String → Bool
  | [] => false
  | t :: rest => (s == t) || strIn s rest

/-- Pairwise distinctness of a list of strings. -/
def allDistinct : List String → Bool
  | [] => true
  | s :: rest => !(strIn s rest) && allDistinct rest

/-- The kept frames of a stack have pairwise distinct keys (true of any
real traceback, where each frame is a distinct file/function/line). -/
def framesKeysOk (stack : List FrameInfo) : Bool :=
  allDistinct ((stack.filter frameKept).map frameKey)

/-- Embedding of `BaseEvent.set_exception`. Process-level inputs are
explicit parameters: `shouldRemoveFrames` is the
`SHOULD_REMOVE_EXCEPTION_FRAMES` flag, `pyMajor` is
`sys.version_info.major`, `stack` is `inspect.trace()`, `now` is
`time.time()`. Item assignment on a non-dict `self.exception` (possible
only for a hand-loaded event) is Python's `TypeError`, modelled as the
error branch. -/
def set_exception (shouldRemoveFrames : Bool) (pyMajor : Nat)
    (stack : List FrameInfo) (now : ℚ) (ev : BaseEvent)
    (exception : PyExcVal) (traceback_data : PyVal)
    (handled : Bool) (from_logs : Bool) : Except PyErr BaseEvent :=
  let ev := { ev with error_code := ErrorCode.EXCEPTION }
  match ev.exception with
  | .dict es =>
      let es := dictSet (.str "type")
        (.str (match exception.typeName with
               | some n => n
               | Option.none => "Unknown")) es
      let es := dictSet (.str "message") (.str exception.strForm) es
      let es := dictSet (.str "traceback") (safeCopy traceback_data) es
      let es := dictSet (.str "time") (.float now) es
      let es :=
        if !shouldRemoveFrames && pyMajor == 3 then
          dictSet (.str "frames") (.dict (buildFrames stack)) es
        else es
      match pyLookup (.str "additional_data") es with
      | Option.none =>
          let ad := dictSet (.str "handled") (.bool handled) []
          let ad := if from_logs then dictSet (.str "from_logs") (.bool true) ad else ad
          Except.ok { ev with exception := .dict (dictSet (.str "additional_data") (.dict ad) es) }
      | some (.dict adEs) =>
          let ad := dictSet (.str "handled") (.bool handled) adEs
          let ad := if from_logs then dictSet (.str "from_logs") (.bool true) ad else ad
          Except.ok { ev with exception := .dict (dictSet (.str "additional_data") (.dict ad) es) }
      | some _ => Except.error PyErr.typeError
  | _ => Except.error PyErr.typeError

/-- Projection for inspecting an outcome of `set_exception`: the value
stored under key `k` of the resulting event's `exception` dict. -/
def exceptionEntry (r : Except PyErr BaseEvent) (k : String) : Option PyVal :=
  match r with
  | .ok ev =>
      match ev.exception with
      | .dict es => pyLookup (.str k) es
      | _ => Option.none
  | _ => Option.none

/-- The deny-list of `epsagon/events/requests.py`. -/
def BLACKLIST_URLS : List String :=
  ["https://accounts.google.com/o/oauth2/token"]

/-- A prepared-request-like object as the requests events read it; each
field is `Option`al so that a field-missing (malformed) object is
representable — attribute access on a missing field is Python's
`AttributeError`. -/
structure Request where
  method : Option PyVal
  url : Option String
  path_url : Option String
  body : Option PyVal

/-- A response object as `update_response` reads it: status code, headers,
and the result of `response.json()` (`Option.none` models the `ValueError`
of a non-JSON body). -/
structure Response where
  status_code : Int
  headers : List (String × PyVal)
  jsonResult : Option PyVal

/-- The `self.metadata` dict of a requests event; the three base keys are
always assigned by `__init__`, the three response keys only by
`update_response`. -/
structure RequestsMetadata where
  method : PyVal
  url : PyVal
  request_body : PyVal
  status_code : Option Int := Option.none
  response_headers : Option PyVal := Option.none
  response_body : Option PyVal := Option.none

/-- The attributes of a constructed requests event: the inherited
`BaseEvent` attributes plus the instance attributes its `__init__` family
assigns (`resource_name`, `event_operation`, `metadata`, and for the
Google API subtype the lowercase `event_type`). -/
structure RequestsEventState where
  base : BaseEvent
  resource_name : String
  event_operation : PyVal
  metadata : RequestsMetadata
  event_type : Option String := Option.none

/-- Python's calling convention for `BaseEvent.__init__(self, start_time)`:
`start_time` is a required positional parameter, so a call supplying no
argument for it — which is exactly what `super(RequestsEvent,
self).__init__()` does — raises `TypeError`. -/
def baseEventInitCall (start_time : Option ℚ) : Except PyErr BaseEvent :=
  match start_time with
  | some t => Except.ok (baseEventInit t)
  | _ => Except.error PyErr.typeError

/-- `args[0]`: Python `IndexError` when the positional arguments are
empty. -/
def argsFirst (args : List Request) : Except PyErr Request :=
  match args with
  | [] => Except.error PyErr.indexError
  | r :: _ => Except.ok r

/-- Attribute access on a duck-typed object field: `AttributeError` when
the field is missing. -/
def getAttr {α : Type} (field : Option α) : Except PyErr α :=
  match field with
  | some x => Except.ok x
  | _ => Except.error PyErr.attributeError

/-- Embedding of `RequestsEvent.update_response`: stores the status code,
the headers as a plain dict, the JSON body or `None` on a `ValueError`,
and marks an error for a status code of 300 or more. -/
def update_response (st : RequestsEventState) (response : Response) : RequestsEventState :=
  let md :=
    { st.metadata with
        status_code := some response.status_code
        response_headers :=
          some (.dict (response.headers.map fun p => (PyVal.str p.1, p.2)))
        response_body := some (response.jsonResult.getD PyVal.none) }
  let st := { st with metadata := md }
  if response.status_code ≥ 300 then { st with base := set_error st.base } else st

/-- Embedding of `RequestsEvent.__init__`. Its first statement is
`super(RequestsEvent, self).__init__()` — a call of
`BaseEvent.__init__` that supplies no `start_time` — so the whole body
raises `TypeError` before any attribute is assigned. `eventType` is the
dynamic `self.EVENT_TYPE`, `uuid` the fresh `uuid4()` string. -/
def requestsEvent_init (eventType : String) (uuid : String)
    (args : List Request) (response : Option Response)
    (exception : Option PyExcVal) : Except PyErr RequestsEventState :=
  match baseEventInitCall Option.none with
  | .error e => .error e
  | .ok base =>
    let base := { base with event_id := "requests-" ++ uuid }
    match argsFirst args with
    | .error e => .error e
    | .ok prepared =>
      match getAttr prepared.method with
      | .error e => .error e
      | .ok method =>
        match getAttr prepared.url with
        | .error e => .error e
        | .ok url =>
          match getAttr prepared.body with
          | .error e => .error e
          | .ok body =>
            let st : RequestsEventState :=
              { base := base
                resource_name := eventType
                event_operation := method
                metadata := { method := method, url := .str url, request_body := body } }
            let st := match response with
                      | some r => update_response st r
                      | _ => st
            let st := match exception with
                      | some _ => { st with base := set_error st.base }
                      | _ => st
            Except.ok st

/-- Splitter on a non-empty separator: the pieces of the character list
between non-overlapping occurrences of the separator. `fuel` bounds the
recursion depth structurally; every step consumes at least one character,
so `fuel = cs.length` is always enough. -/
def splitRunAux (fuel : Nat) (sep : List Char) (cs : List Char) : List (List Char) :=
  match fuel, cs with
  | _, [] => [[]]
  | 0, rest => [rest]
  | fuel + 1, c :: rest =>
      if sep.isPrefixOf (c :: rest) then
        [] :: splitRunAux fuel sep (rest.drop (sep.length - 1))
      else
        match splitRunAux fuel sep rest with
        | [] => [[c]]
        | h :: t => (c :: h) :: t

/-- Python `str.split(sep)` for a non-empty literal separator. -/
def pySplit (s sep : String) : List String :=
  match sep.data with
  | [] => [s]
  | c :: cs => (splitRunAux s.data.length (c :: cs) s.data).map String.mk

/-- Longest prefix of a string whose characters satisfy `p`. -/
def pyTakeWhile (p : Char → Bool) (s : String) : String :=
  String.mk (s.data.takeWhile p)

/-- Python `str.lower` for the ASCII range. -/
def pyLower (s : String) : String :=
  String.mk (s.data.map Char.toLower)

/-- Python `str.find`: index of the first occurrence or `-1`. -/
def strFind (hay needle : List Char) : Int :=
  if needle.isPrefixOf hay then 0
  else
    match hay with
    | [] => -1
    | _ :: t =>
        let r := strFind t needle
        if r < 0 then -1 else r + 1

/-- Python slice `s[i:]` for a non-negative `i`. -/
def strDropFrom (s : String) (i : Int) : String :=
  String.mk (s.data.drop i.toNat)

/-- The `event_operation` extraction of `RequestsAuth0Event.__init__`:
`url[url.find('/api/v2/') + len('/api/v2/'):]` on `path_url`. -/
def auth0Operation (path_url : String) : String :=
  strDropFrom path_url (strFind path_url.data "/api/v2/".data + 8)

/-- The `event_operation` extraction of `RequestsTwilioEvent.__init__`:
`path_url.split('/')[-1]`, the last path segment. -/
def twilioOperation (path_url : String) : String :=
  (pySplit path_url "/").getLastD ""

/-- `'/'.join(path_url.split('/')[-2:])`: the last two segments re-joined,
as extracted by the Google API and Outlook Office subtypes. -/
def lastTwoSegments (path_url : String) : String :=
  String.intercalate "/" (((pySplit path_url "/").reverse.take 2).reverse)

/-- `urlparse(url).netloc`: the network location of the URL — the part
after `://` up to the first `/`, `?` or `#`; empty when the URL has no
scheme separator. -/
def urlNetloc (url : String) : String :=
  match pySplit url "://" with
  | [] => ""
  | [_] => ""
  | _ :: rest =>
      pyTakeWhile (fun c => c != '/' && c != '?' && c != '#')
        (String.intercalate "://" rest)

/-- `urlparse(url).path`: the part after the network location, up to the
first `?` or `#`. -/
def urlPathPart (url : String) : String :=
  match pySplit url "://" with
  | [] => ""
  | [_] => pyTakeWhile (fun c => c != '?' && c != '#') url
  | _ :: rest =>
      let tail := String.intercalate "://" rest
      let netloc := pyTakeWhile (fun c => c != '/' && c != '?' && c != '#') tail
      pyTakeWhile (fun c => c != '?' && c != '#')
        (strDropFrom tail netloc.data.length)

/-- `l[i]` on a list: `IndexError` when out of range. -/
def listIndex {α : Type} (l : List α) (i : Nat) : Except PyErr α :=
  match l.drop i with
  | [] => Except.error PyErr.indexError
  | x :: _ => Except.ok x

/-- The registered requests event classes: the generic one and the
subclasses enumerated by `RequestsEvent.__subclasses__()`. -/
inductive EventType where
  | requests
  | auth0
  | twilio
  | googleapis
  | outlookOffice
deriving DecidableEq, Repr

/-- The `EVENT_TYPE` tag of each class. -/
def eventTypeTag : EventType → String
  | .requests => "requests"
  | .auth0 => "auth0"
  | .twilio => "twilio"
  | .googleapis => "googleapis"
  | .outlookOffice => "outlook.office"

/-- The iteration order of the factory dict
`{class_obj.EVENT_TYPE: class_obj for class_obj in
RequestsEvent.__subclasses__()}`, modelled as the subclass definition
order (Python 2 gives some fixed arbitrary order; no claim depends on a
tie between several matching tags). -/
def subclassTags : List EventType :=
  [.auth0, .twilio, .googleapis, .outlookOffice]

/-- The tag-matching loop of `RequestsEventFactory.create_event`: start
from the generic class and take every registered tag occurring as a
substring of the lowercased netloc — the last match wins. -/
def selectInstanceType (base_url : String) : EventType :=
  subclassTags.foldl
    (fun acc t => if strContains base_url (eventTypeTag t) then t else acc)
    EventType.requests

/-- Dispatch of `instance_type(wrapped, instance, args, kwargs, response,
exception)`: each subtype constructor first runs the `RequestsEvent`
constructor (which raises `TypeError` at its `super().__init__()` call)
and then its own `event_operation` extraction. -/
def constructEvent (t : EventType) (uuid : String) (args : List Request)
    (response : Option Response) (exception : Option PyExcVal) :
    Except PyErr RequestsEventState :=
  match t with
  | .requests => requestsEvent_init "requests" uuid args response exception
  | .auth0 =>
      match requestsEvent_init "auth0" uuid args response exception with
      | .error e => .error e
      | .ok st =>
        match argsFirst args with
        | .error e => .error e
        | .ok prepared =>
          match getAttr prepared.path_url with
          | .error e => .error e
          | .ok purl => .ok { st with event_operation := .str (auth0Operation purl) }
  | .twilio =>
      match requestsEvent_init "twilio" uuid args response exception with
      | .error e => .error e
      | .ok st =>
        match argsFirst args with
        | .error e => .error e
        | .ok prepared =>
          match getAttr prepared.path_url with
          | .error e => .error e
          | .ok purl => .ok { st with event_operation := .str (twilioOperation purl) }
  | .googleapis =>
      match requestsEvent_init "googleapis" uuid args response exception with
      | .error e => .error e
      | .ok st =>
        match argsFirst args with
        | .error e => .error e
        | .ok prepared =>
          match getAttr prepared.path_url with
          | .error e => .error e
          | .ok purl =>
            match getAttr prepared.url with
            | .error e => .error e
            | .ok url =>
              match listIndex (pySplit (urlPathPart url) "/") 1 with
              | .error e => .error e
              | .ok seg =>
                  .ok { st with
                          event_operation := .str (lastTwoSegments purl)
                          event_type := some ("google_" ++ seg) }
  | .outlookOffice =>
      match requestsEvent_init "outlook.office" uuid args response exception with
      | .error e => .error e
      | .ok st =>
        match argsFirst args with
        | .error e => .error e
        | .ok prepared =>
          match getAttr prepared.path_url with
          | .error e => .error e
          | .ok purl => .ok { st with event_operation := .str (lastTwoSegments purl) }

/-- Modelled from the spec: `BaseEvent.add_event` (declared outside
`src/epsagon/event.py`) hands the finalized record to the transport;
returning the record models that handoff. -/
def baseAddEvent (st : RequestsEventState) : Option RequestsEventState :=
  some st

/-- Python `in` over the deny-list: list membership by `==`; a non-string
`metadata['url']` equals no deny-list string. -/
def inBlacklist (url : PyVal) : Bool :=
  BLACKLIST_URLS.any fun s => pyEqb url (.str s)

/-- Embedding of `RequestsEvent.add_event`: return without emitting when
the metadata URL is deny-listed, otherwise the superclass emission;
`Option.none` is the suppressed (nothing-reaches-the-transport) outcome. -/
def requestsAddEvent (st : RequestsEventState) : Option RequestsEventState :=
  if inBlacklist st.metadata.url then Option.none
  else baseAddEvent st

/-- Outcome of `RequestsEventFactory.create_event`'s body after the
`args`/URL extraction: an emitted event, a constructed-but-suppressed
event, or a caught-and-printed construction failure. -/
inductive CreateResult where
  | emitted (st : RequestsEventState)
  | suppressed (st : RequestsEventState)
  | logged (err : PyErr)

/-- Embedding of `RequestsEventFactory.create_event`. The request
extraction and URL parsing happen before the `try`, so their failures are
`Except.error` (an exception propagating to the caller); the `try` block
covers only construction and `add_event`, turning any failure there into
the printed `logged` outcome. `wrapped`, `instance` and `kwargs` are
passed through unused by the source and omitted. -/
def create_event (uuid : String) (args : List Request)
    (response : Option Response) (exception : Option PyExcVal) :
    Except PyErr CreateResult :=
  match argsFirst args with
  | .error e => .error e
  | .ok prepared =>
    match getAttr prepared.url with
    | .error e => .error e
    | .ok url =>
      let base_url := urlNetloc url
      let t := selectInstanceType (pyLower base_url)
      match constructEvent t uuid args response exception with
      | Except.ok ev =>
          match requestsAddEvent ev with
          | some emitted => Except.ok (CreateResult.emitted emitted)
          | _ => Except.ok (CreateResult.suppressed ev)
      | Except.error e => Except.ok (CreateResult.logged e)

/-- Whether a `create_event` outcome emitted an event to the transport. -/
def isEmitted : Except PyErr CreateResult → Bool
  | .ok (.emitted _) => true
  | _ => false

theorem constructEvent_typeError (t : EventType) (uuid : String)
    (args : List Request) (response : Option Response)
    (exception : Option PyExcVal) :
    constructEvent t uuid args response exception = Except.error PyErr.typeError := by
  cases t <;> rfl

theorem create_event_of_url (uuid : String) (prepared : Request)
    (tail : List Request) (response : Option Response)
    (exception : Option PyExcVal) (u : String) (h₂ : prepared.url = some u) :
    create_event uuid (prepared :: tail) response exception
      = Except.ok (CreateResult.logged PyErr.typeError) := by
  simp only [create_event, argsFirst, h₂, getAttr,
    constructEvent_typeError]

/-- Claim C1 counterexample: a call tuple whose positional arguments are
empty is a malformed input for which `create_event` does propagate an
exception (`args[0]` raises `IndexError` before the `try` block). -/
theorem claim_C1_counterexample :
    create_event "u" [] Option.none Option.none
      = Except.error PyErr.indexError := rfl

/-- Claim C1 (amended): `create_event` catches every failure raised inside
its `try` block (event construction and emission) and returns normally,
provided the pre-`try` steps succeed — `args[0]` exists and exposes a
`url` attribute; failures of those two steps propagate to the caller. -/
theorem claim_C1_amended (uuid : String) (args : List Request)
    (response : Option Response) (exception : Option PyExcVal)
    (prepared : Request) (u : String)
    (h₁ : argsFirst args = Except.ok prepared) (h₂ : prepared.url = some u) :
    ∃ r, create_event uuid args response exception = Except.ok r := by
  cases args with
  | nil => simp [argsFirst] at h₁
  | cons p tail =>
      have hp : p = prepared := by simpa [argsFirst] using h₁
      subst hp
      exact ⟨_, create_event_of_url uuid p tail response exception u h₂⟩

/-- Claim C1 amended witness at a concrete well-formed call tuple. -/
theorem claim_C1_amended_witness :
    argsFirst [({ method := some (.str "GET"), url := some "https://example.com/a",
                  path_url := some "/a", body := some PyVal.none } : Request)]
      = Except.ok ({ method := some (.str "GET"), url := some "https://example.com/a",
                     path_url := some "/a", body := some PyVal.none } : Request) ∧
    ∃ r, create_event "w"
        [({ method := some (.str "GET"), url := some "https://example.com/a",
            path_url := some "/a", body := some PyVal.none } : Request)]
        Option.none Option.none = Except.ok r :=
  ⟨rfl, claim_C1_amended "w" _ Option.none Option.none _ "https://example.com/a" rfl rfl⟩

/-- Claim C2: every requests event constructor raises `TypeError` (its
`super().__init__()` call gives `BaseEvent.__init__` no `start_time`), so
`create_event` never emits an event, and on every call that reaches its
`try` block it enters the exception handler and returns the logged
outcome. -/
theorem claim_C2 (uuid : String) (args : List Request)
    (response : Option Response) (exception : Option PyExcVal) :
    (∀ t, constructEvent t uuid args response exception
        = Except.error PyErr.typeError) ∧
    isEmitted (create_event uuid args response exception) = false ∧
    (∀ prepared u, argsFirst args = Except.ok prepared → prepared.url = some u →
      create_event uuid args response exception
        = Except.ok (CreateResult.logged PyErr.typeError)) := by
  refine ⟨fun t => constructEvent_typeError t uuid args response exception, ?_, ?_⟩
  · cases args with
    | nil => rfl
    | cons p tail =>
        cases hu : p.url with
        | none => simp [create_event, argsFirst, getAttr, hu, isEmitted]
        | some u => simp [create_event_of_url uuid p tail response exception u hu, isEmitted]
  · intro prepared u h₁ h₂
    cases args with
    | nil => simp [argsFirst] at h₁
    | cons p tail =>
        have hp : p = prepared := by simpa [argsFirst] using h₁
        subst hp
        exact create_event_of_url uuid p tail response exception u h₂

/-- Claim C2 witness at a concrete call tuple. -/
theorem claim_C2_witness :
    argsFirst [({ method := some (.str "GET"), url := some "https://example.com/b",
                  path_url := some "/b", body := some PyVal.none } : Request)]
      = Except.ok ({ method := some (.str "GET"), url := some "https://example.com/b",
                     path_url := some "/b", body := some PyVal.none } : Request) ∧
    isEmitted (create_event "w"
        [({ method := some (.str "GET"), url := some "https://example.com/b",
            path_url := some "/b", body := some PyVal.none } : Request)]
        Option.none Option.none) = false ∧
    create_event "w"
        [({ method := some (.str "GET"), url := some "https://example.com/b",
            path_url := some "/b", body := some PyVal.none } : Request)]
        Option.none Option.none
      = Except.ok (CreateResult.logged PyErr.typeError) :=
  ⟨rfl, (claim_C2 "w" _ Option.none Option.none).2.1,
    (claim_C2 "w" _ Option.none Option.none).2.2 _ "https://example.com/b" rfl rfl⟩

/-- Claim C3: the error code is monotonic — any number of `set_error`
calls leaves an EXCEPTION code (indeed the whole event) unchanged, a
positive number of calls from a non-EXCEPTION state yields exactly ERROR,
and a single `set_error` produces EXCEPTION exactly when the code already
was EXCEPTION. -/
theorem claim_C3 (ev : BaseEvent) :
    (∀ n : Nat, set_error^[n] ev =
        if ev.error_code = ErrorCode.EXCEPTION ∨ n = 0 then ev
        else { ev with error_code := ErrorCode.ERROR }) ∧
    ((set_error ev).error_code = ErrorCode.EXCEPTION
        ↔ ev.error_code = ErrorCode.EXCEPTION) := by
  have key : ∀ (n : Nat) (e : BaseEvent), set_error^[n] e =
      if e.error_code = ErrorCode.EXCEPTION ∨ n = 0 then e
      else { e with error_code := ErrorCode.ERROR } := by
    intro n
    induction n with
    | zero => intro e; simp
    | succ n ih =>
        intro e
        rw [Function.iterate_succ_apply, ih (set_error e)]
        by_cases he : e.error_code = ErrorCode.EXCEPTION
        · have h1 : set_error e = e := by simp [set_error, he]
          simp [h1, he]
        · have h1 : set_error e = { e with error_code := ErrorCode.ERROR } := by
            simp [set_error, he]
          rw [h1]
          simp [he]
  refine ⟨fun n => key n ev, ?_⟩
  by_cases he : ev.error_code = ErrorCode.EXCEPTION
  · simp [set_error, he]
  · simp [set_error, he]

/-- Claim C5 evaluation: `safeCopy` leaves a dict value under a supported
(string) key untouched, so the nested tuple key `(1, 2)` survives even
though `safeCopy` of that nested dict alone would coerce it to the string
key `"(1, 2)"` — the recursive copy computed for supported-key values is
discarded, contradicting the documented behavior. -/
theorem claim_C5_bug_eval :
    safeCopy (.dict [(.str "a", .dict [(.tuple [.int 1, .int 2], .int 3)])])
      = .dict [(.str "a", .dict [(.tuple [.int 1, .int 2], .int 3)])] ∧
    safeCopy (.dict [(.tuple [.int 1, .int 2], .int 3)])
      = .dict [(.str "(1, 2)", .int 3)] ∧
    pyEqb (.dict [(.tuple [.int 1, .int 2], .int 3)])
        (safeCopy (.dict [(.tuple [.int 1, .int 2], .int 3)])) = false :=
  ⟨rfl, rfl, rfl⟩

/-- Claim C7 evaluation: for the Twilio URL the classifier does select the
Twilio subtype, and the Twilio operation extraction would yield
`"Messages.json"`, but the constructor raises `TypeError` (missing
`start_time` in its `super().__init__()` call), so `create_event` only
logs and no event is constructed or emitted. -/
theorem claim_C7_bug_eval :
    selectInstanceType (pyLower (urlNetloc
        "https://api.twilio.com/2010-04-01/Accounts/AC123/Messages.json"))
      = EventType.twilio ∧
    twilioOperation "/2010-04-01/Accounts/AC123/Messages.json" = "Messages.json" ∧
    create_event "u"
        [({ method := some (.str "GET")
            url := some "https://api.twilio.com/2010-04-01/Accounts/AC123/Messages.json"
            path_url := some "/2010-04-01/Accounts/AC123/Messages.json"
            body := some PyVal.none } : Request)]
        Option.none Option.none
      = Except.ok (CreateResult.logged PyErr.typeError) :=
  ⟨rfl, rfl, rfl⟩

/-- Claim C8: loading a well-formed representation and serializing the
resulting event reproduces the representation exactly. -/
theorem claim_C8 (x : EventDict) (h : wellFormedEventDict x = true) :
    (load_from_dict x).map to_dict = some x := by
  obtain ⟨i, stt, d, o, ec, res, exc⟩ := x
  cases ec <;> cases exc <;>
    simp_all [wellFormedEventDict, load_from_dict, to_dict, baseEventInit]

/-- Claim C8 witness at a concrete well-formed representation. -/
theorem claim_C8_witness :
    wellFormedEventDict
        ({ id := "e1", start_time := 5, duration := 2, origin := "base",
           error_code := ErrorCode.ERROR, resource := .dict [],
           exception := Option.none } : EventDict) = true ∧
    (load_from_dict
        ({ id := "e1", start_time := 5, duration := 2, origin := "base",
           error_code := ErrorCode.ERROR, resource := .dict [],
           exception := Option.none } : EventDict)).map to_dict
      = some ({ id := "e1", start_time := 5, duration := 2, origin := "base",
                error_code := ErrorCode.ERROR, resource := .dict [],
                exception := Option.none } : EventDict) :=
  ⟨rfl, claim_C8 _ rfl⟩

/-- Claim C10: a fully-constructed requests event whose metadata URL is on
the deny-list is suppressed by `add_event` — nothing is handed to the
transport. -/
theorem claim_C10 (st : RequestsEventState)
    (h : inBlacklist st.metadata.url = true) :
    requestsAddEvent st = Option.none := by
  simp [requestsAddEvent, h]

/-- Claim C10 witness: a concrete fully-populated record with the
deny-listed Google OAuth URL is suppressed. -/
theorem claim_C10_witness :
    inBlacklist (PyVal.str "https://accounts.google.com/o/oauth2/token") = true ∧
    requestsAddEvent
        { base := baseEventInit 0
          resource_name := "requests"
          event_operation := .str "POST"
          metadata := { method := .str "POST"
                        url := .str "https://accounts.google.com/o/oauth2/token"
                        request_body := PyVal.none } }
      = Option.none :=
  ⟨rfl, claim_C10 _ rfl⟩

theorem safeCopyLoop_of_supported :
    ∀ (todo acc : List (PyVal × PyVal)),
      (∀ p ∈ todo, keySupported p.1 = true) → safeCopyLoop todo acc = acc := by
  intro todo
  induction todo with
  | nil => intro acc _; rfl
  | cons e rest ih =>
      intro acc h
      obtain ⟨k, v⟩ := e
      have hk : keySupported k = true := h (k, v) (List.mem_cons_self _ _)
      simp only [safeCopyLoop, hk, if_pos]
      exact ih acc fun p hp => h p (List.mem_cons_of_mem _ hp)

theorem mem_dictSet_cases :
    ∀ (es : List (PyVal × PyVal)) (k v : PyVal) (p : PyVal × PyVal),
      p ∈ dictSet k v es → p.1 ∈ es.map Prod.fst ∨ p = (k, v) := by
  intro es
  induction es with
  | nil =>
      intro k v p hp
      simp [dictSet] at hp
      exact Or.inr hp
  | cons e rest ih =>
      intro k v p hp
      obtain ⟨k₀, v₀⟩ := e
      by_cases he : pyEqb k₀ k = true
      · simp only [dictSet, he, if_pos] at hp
        rcases List.mem_cons.mp hp with h | h
        · refine Or.inl ?_
          rw [h]
          simp only [List.map_cons]
          exact List.mem_cons_self _ _
        · refine Or.inl ?_
          simp only [List.map_cons]
          exact List.mem_cons_of_mem _ (List.mem_map_of_mem Prod.fst h)
      · simp only [dictSet, he, if_neg, Bool.not_eq_true] at hp
        rcases List.mem_cons.mp hp with h | h
        · refine Or.inl ?_
          rw [h]
          simp only [List.map_cons]
          exact List.mem_cons_self _ _
        · rcases ih k v p h with h' | h'
          · refine Or.inl ?_
            simp only [List.map_cons]
            exact List.mem_cons_of_mem _ h'
          · exact Or.inr h'

theorem safeCopyLoop_keys_supported :
    ∀ (todo acc : List (PyVal × PyVal)),
      (∀ p ∈ acc, keySupported p.1 = false → p.1 ∈ todo.map Prod.fst) →
      ∀ p ∈ safeCopyLoop todo acc, keySupported p.1 = true := by
  intro todo
  induction todo with
  | nil =>
      intro acc h p hp
      by_contra hns
      have := h p (by simpa [safeCopyLoop] using hp) (by simpa using hns)
      simp at this
  | cons e rest ih =>
      intro acc h p hp
      obtain ⟨k, v⟩ := e
      by_cases hk : keySupported k = true
      · simp only [safeCopyLoop, hk, if_pos] at hp
        refine ih acc ?_ p hp
        intro q hq hqn
        have hmem := h q hq hqn
        simp only [List.map_cons] at hmem
        rcases List.mem_cons.mp hmem with h' | h'
        · exact absurd (show keySupported q.1 = true by rw [h']; exact hk)
            (by simp [hqn])
        · exact h'
      · simp only [safeCopyLoop, hk] at hp
        refine ih _ ?_ p hp
        intro q hq hqn
        rcases mem_dictSet_cases _ _ _ q hq with h' | h'
        · rcases List.mem_map.mp h' with ⟨r, hr, hrq⟩
          have hr' := List.mem_filter.mp hr
          have hrk : pyEqb r.1 k = false := by
            simpa using hr'.2
          have hmem := h r hr'.1 (hrq ▸ hqn)
          simp only [List.map_cons] at hmem
          rcases List.mem_cons.mp hmem with h'' | h''
          · rw [h''] at hrk
            rw [pyEqb_refl k] at hrk
            exact absurd hrk (by simp)
          · exact hrq ▸ h''
        · rw [h'] at hqn
          simp [keySupported] at hqn

theorem safeCopyList_idem_of :
    ∀ (xs : List PyVal),
      (∀ x ∈ xs, safeCopy (safeCopy x) = safeCopy x) →
      safeCopyList (safeCopyList xs) = safeCopyList xs := by
  intro xs
  induction xs with
  | nil => intro _; rfl
  | cons x xs ih =>
      intro h
      simp only [safeCopyList]
      rw [h x (List.mem_cons_self _ _), ih fun y hy => h y (List.mem_cons_of_mem _ hy)]

theorem safeCopy_idem_aux : (v : PyVal) → safeCopy (safeCopy v) = safeCopy v
  | .none => rfl
  | .bool _ => rfl
  | .int _ => rfl
  | .float _ => rfl
  | .str _ => rfl
  | .list xs => by
      cases xs with
      | nil => rfl
      | cons x xs =>
          have e1 : safeCopy (.list (x :: xs)) = .list (safeCopy x :: safeCopyList xs) := rfl
          have e2 : safeCopy (.list (safeCopy x :: safeCopyList xs))
              = .list (safeCopy (safeCopy x) :: safeCopyList (safeCopyList xs)) := rfl
          rw [e1, e2, safeCopy_idem_aux x,
            safeCopyList_idem_of xs fun y hy => safeCopy_idem_aux y]
  | .tuple xs => by
      cases xs with
      | nil => rfl
      | cons x xs =>
          have e1 : safeCopy (.tuple (x :: xs)) = .list (safeCopy x :: safeCopyList xs) := rfl
          have e2 : safeCopy (.list (safeCopy x :: safeCopyList xs))
              = .list (safeCopy (safeCopy x) :: safeCopyList (safeCopyList xs)) := rfl
          rw [e1, e2, safeCopy_idem_aux x,
            safeCopyList_idem_of xs fun y hy => safeCopy_idem_aux y]
  | .dict es => by
      cases es with
      | nil => rfl
      | cons e es' =>
          have h1 : safeCopy (.dict (e :: es')) = .dict (safeCopyLoop (e :: es') (e :: es')) := by
            simp [safeCopy]
          have hsup : ∀ p ∈ safeCopyLoop (e :: es') (e :: es'), keySupported p.1 = true :=
            safeCopyLoop_keys_supported (e :: es') (e :: es')
              (fun p hp _ => List.mem_map_of_mem Prod.fst hp)
          rw [h1]
          cases hL : safeCopyLoop (e :: es') (e :: es') with
          | nil => rfl
          | cons l ls =>
              have hfix : safeCopyLoop (l :: ls) (l :: ls) = l :: ls :=
                safeCopyLoop_of_supported (l :: ls) (l :: ls) (hL ▸ hsup)
              have e2 : safeCopy (.dict (l :: ls))
                  = .dict (safeCopyLoop (l :: ls) (l :: ls)) := by simp [safeCopy]
              rw [e2, hfix]
termination_by v => sizeOf v
decreasing_by
  all_goals simp_wf
  all_goals try omega
  all_goals
    have hlt := List.sizeOf_lt_of_mem hy
    omega

/-- Claim C9: `_copy_user_data_safely` is idempotent on its own output —
applying it twice equals applying it once, for every value. -/
theorem claim_C9 (v : PyVal) : safeCopy (safeCopy v) = safeCopy v :=
  safeCopy_idem_aux v

theorem set_exception_fresh (srf : Bool) (pyM : Nat) (stack : List FrameInfo)
    (now : ℚ) (stt : ℚ) (eid org : String) (dur : ℚ) (ec : ErrorCode)
    (term : Bool) (res : PyVal) (exc : PyExcVal) (tb : PyVal)
    (handled from_logs : Bool) :
    set_exception srf pyM stack now
      ⟨stt, eid, org, dur, ec, PyVal.dict [], term, res⟩ exc tb handled from_logs
    = Except.ok ⟨stt, eid, org, dur, ErrorCode.EXCEPTION,
        PyVal.dict
          ([(.str "type", .str (match exc.typeName with
                                | some n => n
                                | Option.none => "Unknown")),
            (.str "message", .str exc.strForm),
            (.str "traceback", safeCopy tb),
            (.str "time", .float now)]
           ++ (if !srf && pyM == 3 then [(.str "frames", .dict (buildFrames stack))] else [])
           ++ [(.str "additional_data", .dict
                 ((.str "handled", .bool handled) ::
                  (if from_logs then [(.str "from_logs", .bool true)] else [])))]),
        term, res⟩ := by
  cases hc : (!srf && (pyM == 3)) <;> cases from_logs <;>
    simp [set_exception, dictSet, pyEqb, pyLookup, hc]

/-- Claim C4: for every exception value and every traceback value,
`set_exception` on an event with a fresh exception dict completes without
raising, and when the exception's type lacks a `__name__` attribute it
stores `"Unknown"` under the `type` key. -/
theorem claim_C4 (srf : Bool) (pyM : Nat) (stack : List FrameInfo) (now : ℚ)
    (ev : BaseEvent) (exc : PyExcVal) (tb : PyVal) (handled from_logs : Bool)
    (h : ev.exception = PyVal.dict []) :
    (∃ ev', set_exception srf pyM stack now ev exc tb handled from_logs
        = Except.ok ev') ∧
    (exc.typeName = Option.none →
      ∃ ev' es, set_exception srf pyM stack now ev exc tb handled from_logs
          = Except.ok ev' ∧
        ev'.exception = PyVal.dict es ∧
        pyLookup (.str "type") es = some (.str "Unknown")) := by
  obtain ⟨stt, eid, org, dur, ec, exc0, term, res⟩ := ev
  replace h : exc0 = PyVal.dict [] := h
  subst h
  refine ⟨⟨_, set_exception_fresh srf pyM stack now stt eid org dur ec term res
      exc tb handled from_logs⟩, fun hname => ⟨_, _,
      set_exception_fresh srf pyM stack now stt eid org dur ec term res
        exc tb handled from_logs, rfl, ?_⟩⟩
  simp [pyLookup, pyEqb, hname]

/-- Claim C4 witness: a concrete event and an exception value whose type
lacks `__name__`. -/
theorem claim_C4_witness :
    (baseEventInit 0).exception = PyVal.dict [] ∧
    (∃ ev', set_exception true 3 [] 7 (baseEventInit 0)
        ⟨Option.none, "boom"⟩ PyVal.none true false = Except.ok ev') ∧
    (∃ ev' es, set_exception true 3 [] 7 (baseEventInit 0)
        ⟨Option.none, "boom"⟩ PyVal.none true false = Except.ok ev' ∧
      ev'.exception = PyVal.dict es ∧
      pyLookup (.str "type") es = some (.str "Unknown")) :=
  ⟨rfl,
    (claim_C4 true 3 [] 7 (baseEventInit 0) ⟨Option.none, "boom"⟩
      PyVal.none true false rfl).1,
    (claim_C4 true 3 [] 7 (baseEventInit 0) ⟨Option.none, "boom"⟩
      PyVal.none true false rfl).2 rfl⟩

theorem strIn_false_of (s : String) :
    ∀ (l : List String), strIn s l = false → ∀ t ∈ l, (s == t) = false := by
  intro l
  induction l with
  | nil => intro _ t ht; simp at ht
  | cons u rest ih =>
      intro h t ht
      simp only [strIn, Bool.or_eq_false_iff] at h
      rcases List.mem_cons.mp ht with h' | h'
      · rw [h']; exact h.1
      · exact ih h.2 t h'

theorem dictSet_str_fresh (s : String) (v : PyVal) :
    ∀ (es : List (PyVal × PyVal)),
      (∀ p ∈ es, pyEqb p.1 (.str s) = false) →
      dictSet (.str s) v es = es ++ [(.str s, v)] := by
  intro es
  induction es with
  | nil => intro _; rfl
  | cons e rest ih =>
      intro h
      obtain ⟨k₀, v₀⟩ := e
      have hk : pyEqb k₀ (.str s) = false := h (k₀, v₀) (List.mem_cons_self _ _)
      simp only [dictSet, hk, Bool.false_eq_true, if_neg, List.cons_append]
      rw [ih fun p hp => h p (List.mem_cons_of_mem _ hp)]
      simp

theorem foldl_framesStep :
    ∀ (stack : List FrameInfo) (acc : List (PyVal × PyVal)),
      (∀ fr ∈ stack, frameKept fr = true →
        ∀ p ∈ acc, pyEqb p.1 (.str (frameKey fr)) = false) →
      allDistinct ((stack.filter frameKept).map frameKey) = true →
      stack.foldl framesStep acc
        = acc ++ (stack.filter frameKept).map
            (fun fr => (PyVal.str (frameKey fr), PyVal.dict fr.f_locals)) := by
  intro stack
  induction stack with
  | nil => intro acc _ _; simp
  | cons fr rest ih =>
      intro acc hfresh hdis
      simp only [List.foldl_cons]
      cases hk : frameKept fr with
      | false =>
          have hstep : framesStep acc fr = acc := by simp [framesStep, hk]
          have hfil : (fr :: rest).filter frameKept = rest.filter frameKept := by
            simp [List.filter_cons, hk]
          rw [hstep, hfil]
          rw [hfil] at hdis
          exact ih acc
            (fun fr' hfr' => hfresh fr' (List.mem_cons_of_mem _ hfr')) hdis
      | true =>
          have hstep : framesStep acc fr
              = acc ++ [(.str (frameKey fr), .dict fr.f_locals)] := by
            simp only [framesStep, hk, if_pos]
            exact dictSet_str_fresh _ _ acc
              (hfresh fr (List.mem_cons_self _ _) hk)
          have hfil : (fr :: rest).filter frameKept = fr :: rest.filter frameKept := by
            simp [List.filter_cons, hk]
          rw [hfil] at hdis
          simp only [List.map_cons, allDistinct, Bool.and_eq_true,
            Bool.not_eq_true'] at hdis
          obtain ⟨hdis1, hdis2⟩ := hdis
          have hfresh' : ∀ fr' ∈ rest, frameKept fr' = true →
              ∀ p ∈ acc ++ [(PyVal.str (frameKey fr), PyVal.dict fr.f_locals)],
                pyEqb p.1 (.str (frameKey fr')) = false := by
            intro fr' hfr' hk' p hp
            rcases List.mem_append.mp hp with hp | hp
            · exact hfresh fr' (List.mem_cons_of_mem _ hfr') hk' p hp
            · have hpe : p = (PyVal.str (frameKey fr), PyVal.dict fr.f_locals) := by
                simpa using hp
              rw [hpe]
              show (frameKey fr == frameKey fr') = false
              exact strIn_false_of _ _ hdis1 _
                (List.mem_map_of_mem frameKey (List.mem_filter.mpr ⟨hfr', hk'⟩))
          rw [hstep, ih _ hfresh' hdis2, hfil]
          simp

theorem buildFrames_eq (stack : List FrameInfo) (h : framesKeysOk stack = true) :
    buildFrames stack
      = (stack.filter frameKept).map
          (fun fr => (PyVal.str (frameKey fr), PyVal.dict fr.f_locals)) := by
  have := foldl_framesStep stack []
    (by intro fr _ _ p hp; simp at hp) h
  simpa [buildFrames] using this

/-- Claim C6 counterexample: a kept frame's locals dict is stored raw —
the value under the frame key is the unsanitized locals (here with a
tuple key), which differs from its SafeCopy, so the claim that the locals
are passed through SafeCopy fails at this input. -/
theorem claim_C6_counterexample :
    exceptionEntry
        (set_exception false 3
          [⟨"app.py", "f", 3, [(.tuple [.int 1, .int 2], .int 3)]⟩] 0
          (baseEventInit 0) ⟨some "ValueError", "boom"⟩ PyVal.none true false)
        "frames"
      = some (.dict [(.str "app.py/f/3",
          .dict [(.tuple [.int 1, .int 2], .int 3)])]) ∧
    pyEqb (.dict [(.tuple [.int 1, .int 2], .int 3)])
        (safeCopy (.dict [(.tuple [.int 1, .int 2], .int 3)])) = false :=
  ⟨rfl, rfl⟩

/-- Claim C6 (amended): with frame collection enabled
(`SHOULD_REMOVE_EXCEPTION_FRAMES` false, Python 3) and a fresh exception
dict, the recorded `frames` mapping holds exactly the stack frames whose
filename avoids `/epsagon` and whose locals are non-empty, keyed
`<file>/<function>/<line>`, with the frame's raw local-variable dict as
value (not passed through SafeCopy). -/
theorem claim_C6_amended (stack : List FrameInfo) (now : ℚ) (ev : BaseEvent)
    (exc : PyExcVal) (tb : PyVal) (handled from_logs : Bool)
    (h : ev.exception = PyVal.dict []) (hkeys : framesKeysOk stack = true) :
    ∃ ev' es, set_exception false 3 stack now ev exc tb handled from_logs
        = Except.ok ev' ∧
      ev'.exception = PyVal.dict es ∧
      pyLookup (.str "frames") es
        = some (.dict ((stack.filter frameKept).map
            (fun fr => (PyVal.str (frameKey fr), PyVal.dict fr.f_locals)))) := by
  obtain ⟨stt, eid, org, dur, ec, exc0, term, res⟩ := ev
  replace h : exc0 = PyVal.dict [] := h
  subst h
  refine ⟨_, _, set_exception_fresh false 3 stack now stt eid org dur ec term res
    exc tb handled from_logs, rfl, ?_⟩
  rw [← buildFrames_eq stack hkeys]
  simp [pyLookup, pyEqb]

/-- Claim C6 amended witness: one instrumentation frame (filtered out),
one application frame with non-empty locals (kept, stored raw). -/
theorem claim_C6_amended_witness :
    (baseEventInit 0).exception = PyVal.dict [] ∧
    framesKeysOk
      [⟨"/site-packages/epsagon/wrapper.py", "wrap", 10, [(.str "x", .int 1)]⟩,
       ⟨"app.py", "f", 3, [(.str "y", .int 2)]⟩] = true ∧
    (∃ ev' es, set_exception false 3
        [⟨"/site-packages/epsagon/wrapper.py", "wrap", 10, [(.str "x", .int 1)]⟩,
         ⟨"app.py", "f", 3, [(.str "y", .int 2)]⟩] 0
        (baseEventInit 0) ⟨some "ValueError", "boom"⟩ PyVal.none true false
        = Except.ok ev' ∧
      ev'.exception = PyVal.dict es ∧
      pyLookup (.str "frames") es
        = some (.dict
            [(.str "app.py/f/3", .dict [(.str "y", .int 2)])])) := by
  refine ⟨rfl, rfl, ?_⟩
  have := claim_C6_amended
    [⟨"/site-packages/epsagon/wrapper.py", "wrap", 10, [(.str "x", .int 1)]⟩,
     ⟨"app.py", "f", 3, [(.str "y", .int 2)]⟩] 0
    (baseEventInit 0) ⟨some "ValueError", "boom"⟩ PyVal.none true false rfl rfl
  simpa using this

end Epsagon
